import Mathlib

/-!
Verification of the mips-assembler core (src/main.rs): a shallow embedding of
the mnemonic tables, the tokenizer, the three format encoders and the three
format decoders, together with theorems settling the specification claims.

Machine integers (`u32`) are modelled as `Nat`; every operation of the source
stays below `2^32` except the shift-amount shift in `assemble_r`, which is
reduced `% 2^32` exactly where Rust's `<<` wraps.  A Rust panic
(`unwrap` / `expect` / out-of-bounds indexing) is modelled as `none` /
`LineResult.crash`.
-/

set_option maxRecDepth 4000

namespace Mips

/-- Opcode constant `LW_OPCODE` of the source. -/
def LW_OPCODE : Nat := 0b100011

/-- Opcode constant `SW_OPCODE` of the source. -/
def SW_OPCODE : Nat := 0b101011

/-- Function-code constant `SLL_OPCODE` of the source. -/
def SLL_OPCODE : Nat := 0b000000

/-- Function-code constant `SLLV_OPCODE` of the source. -/
def SLLV_OPCODE : Nat := 0b000100

/-- Function-code constant `SRL_OPCODE` of the source. -/
def SRL_OPCODE : Nat := 0b000010

/-- Function-code constant `SRLV_OPCODE` of the source. -/
def SRLV_OPCODE : Nat := 0b000110

/-- Function-code constant `SRA_OPCODE` of the source. -/
def SRA_OPCODE : Nat := 0b000011

/-- Function-code constant `SRAV_OPCODE` of the source. -/
def SRAV_OPCODE : Nat := 0b000111

/-- Rust `char::is_whitespace` (the Unicode `White_Space` property), the
predicate used by `str::trim`. -/
def isRustWhitespace (c : Char) : Bool :=
  c.toNat = 9 || c.toNat = 10 || c.toNat = 11 || c.toNat = 12 || c.toNat = 13 ||
  c.toNat = 32 || c.toNat = 133 || c.toNat = 160 || c.toNat = 5760 ||
  (8192 ≤ c.toNat && c.toNat ≤ 8202) || c.toNat = 8232 || c.toNat = 8233 ||
  c.toNat = 8239 || c.toNat = 8287 || c.toNat = 12288

/-- Rust `str::trim`. -/
def trimWs (s : List Char) : List Char :=
  ((s.dropWhile isRustWhitespace).reverse.dropWhile isRustWhitespace).reverse

/-- Rust `str::split_once("#")`: the text before the first `'#'` together with
the remainder, or `none` when there is no `'#'`. -/
def splitOnceHash : List Char → Option (List Char × List Char)
  | [] => none
  | c :: rest =>
    if c = '#' then some ([], rest)
    else (splitOnceHash rest).map (fun p => (c :: p.1, p.2))

/-- The comment stripping of `assemble_line`: keep the prefix delivered by
`split_once("#")`, or the whole line when it has no `'#'`. -/
def stripComment (s : List Char) : List Char :=
  match splitOnceHash s with
  | some p => p.1
  | none => s

/-- Helper of `splitCh`, carrying the reversed current piece. -/
def splitChAux (p : Char → Bool) : List Char → List Char → List (List Char)
  | [], acc => [acc.reverse]
  | c :: rest, acc =>
    if p c then acc.reverse :: splitChAux p rest []
    else splitChAux p rest (c :: acc)

/-- Rust `str::split(pred)`: a boundary at every matching character, keeping
empty pieces (so adjacent separators yield empty strings). -/
def splitCh (p : Char → Bool) (s : List Char) : List (List Char) :=
  splitChAux p s []

/-- The separator predicate of `assemble_line`: `c == ',' || c == ' '`. -/
def isSepChar (c : Char) : Bool := c = ',' || c = ' '

/-- The separator predicate used on the `lw`/`sw` offset operand:
`c == '(' || c == ')'`. -/
def isParenChar (c : Char) : Bool := c = '(' || c = ')'

/-- `u8::to_ascii_lowercase` on one character. -/
def toLowerChar (c : Char) : Char :=
  if 65 ≤ c.toNat ∧ c.toNat ≤ 90 then Char.ofNat (c.toNat + 32) else c

/-- `str::to_ascii_lowercase`. -/
def toLowerStr (s : String) : String := String.mk (s.data.map toLowerChar)

/-- Rust `str::parse::<u32>()`: an optional leading `'+'`, then one or more
ASCII digits, and the value must fit in 32 bits; anything else is an error. -/
def parseU32 (s : String) : Option Nat :=
  let ds := match s.data with
    | '+' :: rest => rest
    | l => l
  if ds ≠ [] ∧ ds.all (fun c => c.isDigit) then
    let v := ds.foldl (fun a c => a * 10 + (c.toNat - 48)) 0
    if v < 4294967296 then some v else none
  else none

/-- `create_j_codes` of the source. -/
def j_codes : List (String × Nat) := [("j", 0b000010), ("jal", 0b000011)]

/-- `create_i_codes` of the source. -/
def i_codes : List (String × Nat) :=
  [("addi", 0b001000), ("addiu", 0b001001), ("andi", 0b001100),
   ("beq", 0b000100), ("bne", 0b000101), ("lw", LW_OPCODE),
   ("ori", 0b001101), ("sw", SW_OPCODE)]

/-- `create_r_codes` of the source. -/
def r_codes : List (String × Nat) :=
  [("add", 0b100000), ("addu", 0b100001), ("and", 0b100100),
   ("div", 0b011010), ("jr", 0b001000), ("nor", 0b100111),
   ("or", 0b100101), ("sll", SLL_OPCODE), ("sllv", SLLV_OPCODE),
   ("slt", 0b101010), ("sltu", 0b101011), ("sra", SRA_OPCODE),
   ("srav", SRAV_OPCODE), ("srl", SRL_OPCODE), ("srlv", SRLV_OPCODE),
   ("sub", 0b100010), ("subu", 0b100011), ("xor", 0b100110)]

/-- `create_register_codes` of the source: only the symbolic names appear (the
source comment records that aliases were not implemented). -/
def register_codes : List (String × Nat) :=
  [("$zero", 0b00000), ("$at", 0b00001), ("$v0", 0b00010), ("$v1", 0b00011),
   ("$a0", 0b00100), ("$a1", 0b00101), ("$a2", 0b00110), ("$a3", 0b00111),
   ("$t0", 0b01000), ("$t1", 0b01001), ("$t2", 0b01010), ("$t3", 0b01011),
   ("$t4", 0b01100), ("$t5", 0b01101), ("$t6", 0b01110), ("$t7", 0b01111),
   ("$s0", 0b10000), ("$s1", 0b10001), ("$s2", 0b10010), ("$s3", 0b10011),
   ("$s4", 0b10100), ("$s5", 0b10101), ("$s6", 0b10110), ("$s7", 0b10111),
   ("$t8", 0b11000), ("$t9", 0b11001), ("$k0", 0b11010), ("$k1", 0b11011),
   ("$gp", 0b11100), ("$sp", 0b11101), ("$fp", 0b11110), ("$ra", 0b11111)]

/-- `BiMap::get_by_left` on the tables above. -/
def getByLeft (t : List (String × Nat)) (k : String) : Option Nat :=
  (t.find? (fun p => p.1 == k)).map (fun p => p.2)

/-- `BiMap::get_by_right` on the tables above. -/
def getByRight (t : List (String × Nat)) (v : Nat) : Option String :=
  (t.find? (fun p => p.2 == v)).map (fun p => p.1)

/-- The split of the `"offset(register)"` operand in `assemble_i`:
`parts[2].split(|c| c == '(' || c == ')')` followed by the empty filter. -/
def parenFields (s : String) : List String :=
  ((splitCh isParenChar s.data).filter (fun t => !t.isEmpty)).map (fun t => String.mk t)

/-- `assemble_i` of the source; `none` models a panic (failed `unwrap`,
failed `expect`, or an out-of-bounds index). -/
def assemble_i (opcode : Nat) (parts : List String) : Option Nat :=
  if opcode = LW_OPCODE ∨ opcode = SW_OPCODE then do
    let p2 ← parts.get? 2
    let last_part_parts := parenFields p2
    let t_register ← getByLeft register_codes (← parts.get? 1)
    let immediate := (← parseU32 (← last_part_parts.get? 0)) &&& 0xffff
    let s_register ← getByLeft register_codes (← last_part_parts.get? 1)
    pure (immediate ||| (s_register <<< 16) ||| (t_register <<< 21) ||| (opcode <<< 26))
  else do
    let immediate := (← parseU32 (← parts.get? 3)) &&& 0xffff
    let t_register ← getByLeft register_codes (← parts.get? 1)
    let s_register ← getByLeft register_codes (← parts.get? 2)
    pure (immediate ||| (s_register <<< 16) ||| (t_register <<< 21) ||| (opcode <<< 26))

/-- `assemble_r` of the source; the `u32` shift `shift_amount << 6` wraps,
hence the explicit `% 2^32`. -/
def assemble_r (func_code : Nat) (parts : List String) : Option Nat := do
  let shift_opcode := func_code = SLL_OPCODE ∨ func_code = SRL_OPCODE ∨ func_code = SRA_OPCODE
  let shift_amount ← (if shift_opcode then do parseU32 (← parts.get? 3) else pure 0)
  let d_register ← getByLeft register_codes (← parts.get? 1)
  let t_register ← getByLeft register_codes (← parts.get? 2)
  let s_register ← (if shift_opcode then pure 0 else do getByLeft register_codes (← parts.get? 3))
  pure (func_code ||| ((shift_amount <<< 6) % 4294967296) ||| (d_register <<< 11) |||
    (t_register <<< 16) ||| (s_register <<< 21))

/-- `assemble_j` of the source: only the opcode field is populated. -/
def assemble_j (opcode : Nat) : Nat := opcode <<< 26

/-- The outcome of `assemble_line` on one line: a normally produced word, the
`"Failed to parse line"` fallback (which still returns the word `0`), or a
crash of the process. -/
inductive LineResult where
  | ok (w : Nat) : LineResult
  | failedParse (w : Nat) : LineResult
  | crash : LineResult
deriving DecidableEq, Repr

/-- The word `assemble_file` writes for a line, if any: the returned `u32` is
written unconditionally, whether or not the fallback branch ran. -/
def emittedWord : LineResult → Option Nat
  | .ok w => some w
  | .failedParse w => some w
  | .crash => none

/-- The token list built by `assemble_line` (before the mnemonic is
lower-cased): strip the comment, trim, split on spaces and commas, and drop
empty fields. -/
def rawParts (line : List Char) : List String :=
  ((splitCh isSepChar (trimWs (stripComment line))).filter (fun t => !t.isEmpty)).map
    (fun t => String.mk t)

/-- The dispatch of `assemble_line` on the token list: lower-case the
mnemonic, then try the immediate, register and jump tables in that order.
An empty token list crashes (`parts[0]` out of bounds). -/
def assembleParts (parts : List String) : LineResult :=
  match parts with
  | [] => .crash
  | p0 :: _ =>
    let instruction := toLowerStr p0
    match getByLeft i_codes instruction with
    | some i_opcode =>
      match assemble_i i_opcode parts with
      | some w => .ok w
      | none => .crash
    | none =>
      match getByLeft r_codes instruction with
      | some r_opcode =>
        match assemble_r r_opcode parts with
        | some w => .ok w
        | none => .crash
      | none =>
        match getByLeft j_codes instruction with
        | some j_opcode => .ok (assemble_j j_opcode)
        | none => .failedParse 0

/-- `assemble_line` of the source. -/
def assemble_line (line : String) : LineResult :=
  assembleParts (rawParts line.data)

/-- The tokenizer of `assemble_line` as a unit (claim C6): the token list with
the mnemonic token lower-cased, and `[]` for a blank line. -/
def tokenize (line : String) : List String :=
  match rawParts line.data with
  | [] => []
  | p0 :: rest => toLowerStr p0 :: rest

/-- `disassemble_i` of the source. -/
def disassemble_i (instruction : Nat) (instruction_name : String) : Option String := do
  let t_register ← getByRight register_codes ((instruction >>> 21) &&& 0b11111)
  let s_register ← getByRight register_codes ((instruction >>> 16) &&& 0b11111)
  let immediate := instruction &&& 0xffff
  if instruction_name = "lw" ∨ instruction_name = "sw" then
    pure (instruction_name ++ " " ++ t_register ++ ", " ++ toString immediate ++ "(" ++
      s_register ++ ")" ++ "\n")
  else
    pure (instruction_name ++ " " ++ t_register ++ ", " ++ s_register ++ ", " ++
      toString immediate ++ "\n")

/-- `disassemble_r` of the source. -/
def disassemble_r (instruction : Nat) (instruction_name : String) : Option String := do
  let d_register ← getByRight register_codes ((instruction >>> 11) &&& 0b11111)
  let t_register ← getByRight register_codes ((instruction >>> 16) &&& 0b11111)
  let s_register ← getByRight register_codes ((instruction >>> 21) &&& 0b11111)
  pure (instruction_name ++ " " ++ d_register ++ ", " ++ s_register ++ ", " ++ t_register)

/-- `disassemble_j` of the source. -/
def disassemble_j (instruction_name : String) : String :=
  instruction_name ++ " unimplemented"

/-- The per-word dispatch of the disassembly loop in `main`: R-type when the
opcode field is zero, otherwise the jump table first and the immediate table
second; `none` models the panics (`unwrap` on the function-code lookup,
`panic` on an opcode found in neither table). -/
def disassemble_word (instruction : Nat) : Option String :=
  let opcode := instruction >>> 26
  if opcode = 0 then
    match getByRight r_codes (instruction &&& 0b111111) with
    | some name => disassemble_r instruction name
    | none => none
  else
    match getByRight j_codes opcode with
    | some name => some (disassemble_j name)
    | none =>
      match getByRight i_codes opcode with
      | some name => disassemble_i instruction name
      | none => none

/-- Encoding a token list and decoding the produced word, the composition of
claim C3. -/
def encodeThenDecode (parts : List String) : Option String :=
  match assembleParts parts with
  | .ok w => disassemble_word w
  | _ => none

/-- The tokenizer as the spec words it: truncate at the first `'#'`, trim
whitespace, split on any run of spaces or commas discarding empty fields, and
lower-case the first field only. -/
def splitRuns (p : Char → Bool) : List Char → List (List Char)
  | [] => []
  | c :: rest =>
    if p c then splitRuns p rest
    else (c :: rest.takeWhile (fun x => !p x)) :: splitRuns p (rest.dropWhile (fun x => !p x))
termination_by l => l.length
decreasing_by
  all_goals simp only [List.length_cons]
  · exact Nat.lt_succ_of_le (Nat.le_refl _)
  · exact Nat.lt_succ_of_le (List.dropWhile_sublist _).length_le

/-- The spec's tokenizer contract, step by step as §4.2 words it. -/
def tokenizeSpec (line : String) : List String :=
  let noComment := line.data.takeWhile (fun c => c != '#')
  let fields := (splitRuns isSepChar (trimWs noComment)).map (fun t => String.mk t)
  match fields with
  | [] => []
  | p0 :: rest => toLowerStr p0 :: rest

/-! ### Table lemmas -/

theorem getByLeft_mem {t : List (String × Nat)} {k : String} {v : Nat}
    (h : getByLeft t k = some v) : (k, v) ∈ t := by
  induction t with
  | nil => simp [getByLeft] at h
  | cons p ts ih =>
    simp only [getByLeft, List.find?] at h
    cases hpk : (p.1 == k) with
    | true =>
      rw [hpk] at h
      simp only [Option.map_some'] at h
      have h1 : p.1 = k := eq_of_beq hpk
      have : p = (k, v) := by
        cases p
        simp only [Option.some.injEq] at h
        simp_all
      rw [← this]
      exact List.mem_cons_self p ts
    | false =>
      rw [hpk] at h
      exact List.mem_cons_of_mem p (ih h)

/-- Every register name looked up successfully yields a 5-bit code, the
reverse lookup returns the same (unique) name, and numeric codes are below
32. -/
theorem register_lookup_facts {r : String} {c : Nat}
    (h : getByLeft register_codes r = some c) :
    c < 32 ∧ getByRight register_codes c = some r := by
  have hm := getByLeft_mem h
  have hall : register_codes.all
      (fun p => decide (p.2 < 32) && (getByRight register_codes p.2 == some p.1)) = true := by
    decide
  rw [List.all_eq_true] at hall
  have hp := hall _ hm
  simp only [Bool.and_eq_true, decide_eq_true_eq, beq_iff_eq] at hp
  exact hp

/-- Facts about every immediate-table entry: the opcode is six bits and
nonzero, reverse lookup is the identity round trip, the opcode misses the
jump table, and the mnemonic is already lower case. -/
theorem i_lookup_facts {m : String} {op : Nat}
    (h : getByLeft i_codes m = some op) :
    op < 64 ∧ op ≠ 0 ∧ getByRight i_codes op = some m ∧
      getByRight j_codes op = none ∧ toLowerStr m = m := by
  have hm := getByLeft_mem h
  have hall : i_codes.all
      (fun p => decide (p.2 < 64) && decide (p.2 ≠ 0) && (getByRight i_codes p.2 == some p.1) &&
        (getByRight j_codes p.2 == none) && (toLowerStr p.1 == p.1)) = true := by
    decide
  rw [List.all_eq_true] at hall
  have hp := hall _ hm
  simp only [Bool.and_eq_true, decide_eq_true_eq, beq_iff_eq] at hp
  exact ⟨hp.1.1.1.1, hp.1.1.1.2, hp.1.1.2, hp.1.2, hp.2⟩

/-- Every register-table function code is six bits wide. -/
theorem r_lookup_facts {m : String} {op : Nat}
    (h : getByLeft r_codes m = some op) : op < 64 := by
  have hm := getByLeft_mem h
  have hall : r_codes.all (fun p => decide (p.2 < 64)) = true := by decide
  rw [List.all_eq_true] at hall
  have hp := hall _ hm
  simpa using hp

/-! ### Bit-packing lemmas -/

theorem or_shiftLeft_eq_add {a : Nat} (b k : Nat) (h : a < 2 ^ k) :
    a ||| b <<< k = 2 ^ k * b + a := by
  rw [Nat.shiftLeft_eq, Nat.mul_comm b (2 ^ k), Nat.or_comm]
  exact (Nat.mul_add_lt_is_or h b).symm

theorem pack_i (v cs ct op : Nat) (h1 : v < 65536) (h2 : cs < 32) (h3 : ct < 32) :
    v ||| cs <<< 16 ||| ct <<< 21 ||| op <<< 26 =
      67108864 * op + 2097152 * ct + 65536 * cs + v := by
  have p16 : (2 : Nat) ^ 16 = 65536 := by norm_num
  have p21 : (2 : Nat) ^ 21 = 2097152 := by norm_num
  have p26 : (2 : Nat) ^ 26 = 67108864 := by norm_num
  have e1 : v ||| cs <<< 16 = 65536 * cs + v := by
    rw [or_shiftLeft_eq_add cs 16 (by rw [p16]; omega), p16]
  have e2 : v ||| cs <<< 16 ||| ct <<< 21 = 2097152 * ct + (65536 * cs + v) := by
    rw [e1, or_shiftLeft_eq_add ct 21 (by rw [p21]; omega), p21]
  rw [e2, or_shiftLeft_eq_add op 26 (by rw [p26]; omega), p26]
  omega

theorem unpack_i (v cs ct op : Nat) (h1 : v < 65536) (h2 : cs < 32) (h3 : ct < 32) :
    (67108864 * op + 2097152 * ct + 65536 * cs + v) >>> 26 = op ∧
    ((67108864 * op + 2097152 * ct + 65536 * cs + v) >>> 21) &&& 31 = ct ∧
    ((67108864 * op + 2097152 * ct + 65536 * cs + v) >>> 16) &&& 31 = cs ∧
    (67108864 * op + 2097152 * ct + 65536 * cs + v) &&& 65535 = v := by
  have hand31 : ∀ x : Nat, x &&& 31 = x % 32 := fun x => Nat.and_pow_two_sub_one_eq_mod x 5
  have hand16 : ∀ x : Nat, x &&& 65535 = x % 65536 :=
    fun x => Nat.and_pow_two_sub_one_eq_mod x 16
  have d26 : ∀ x : Nat, x >>> 26 = x / 67108864 := fun x => Nat.shiftRight_eq_div_pow x 26
  have d21 : ∀ x : Nat, x >>> 21 = x / 2097152 := fun x => Nat.shiftRight_eq_div_pow x 21
  have d16 : ∀ x : Nat, x >>> 16 = x / 65536 := fun x => Nat.shiftRight_eq_div_pow x 16
  rw [d26, d21, d16, hand31, hand31, hand16]
  refine ⟨?_, ?_, ?_, ?_⟩ <;> omega

theorem pack_r (f n d t s : Nat) (hf : f < 64) (hn : n < 32) (hd : d < 32) (ht : t < 32) :
    f ||| (n <<< 6) % 4294967296 ||| d <<< 11 ||| t <<< 16 ||| s <<< 21 =
      2097152 * s + 65536 * t + 2048 * d + 64 * n + f := by
  have p6 : (2 : Nat) ^ 6 = 64 := by norm_num
  have p11 : (2 : Nat) ^ 11 = 2048 := by norm_num
  have p16 : (2 : Nat) ^ 16 = 65536 := by norm_num
  have p21 : (2 : Nat) ^ 21 = 2097152 := by norm_num
  have hmod : (n <<< 6) % 4294967296 = n <<< 6 := by
    apply Nat.mod_eq_of_lt
    rw [Nat.shiftLeft_eq, p6]
    omega
  have e1 : f ||| n <<< 6 = 64 * n + f := by
    rw [or_shiftLeft_eq_add n 6 (by rw [p6]; omega), p6]
  have e2 : f ||| n <<< 6 ||| d <<< 11 = 2048 * d + (64 * n + f) := by
    rw [e1, or_shiftLeft_eq_add d 11 (by rw [p11]; omega), p11]
  have e3 : f ||| n <<< 6 ||| d <<< 11 ||| t <<< 16 = 65536 * t + (2048 * d + (64 * n + f)) := by
    rw [e2, or_shiftLeft_eq_add t 16 (by rw [p16]; omega), p16]
  rw [hmod, e3, or_shiftLeft_eq_add s 21 (by rw [p21]; omega), p21]
  omega

theorem unpack_r (f n d t s : Nat) (hf : f < 64) (hn : n < 32) (hd : d < 32) (ht : t < 32)
    (hs : s < 32) :
    (2097152 * s + 65536 * t + 2048 * d + 64 * n + f) &&& 63 = f ∧
    ((2097152 * s + 65536 * t + 2048 * d + 64 * n + f) >>> 6) &&& 31 = n ∧
    ((2097152 * s + 65536 * t + 2048 * d + 64 * n + f) >>> 11) &&& 31 = d ∧
    ((2097152 * s + 65536 * t + 2048 * d + 64 * n + f) >>> 16) &&& 31 = t ∧
    ((2097152 * s + 65536 * t + 2048 * d + 64 * n + f) >>> 21) &&& 31 = s := by
  have hand31 : ∀ x : Nat, x &&& 31 = x % 32 := fun x => Nat.and_pow_two_sub_one_eq_mod x 5
  have hand63 : ∀ x : Nat, x &&& 63 = x % 64 := fun x => Nat.and_pow_two_sub_one_eq_mod x 6
  have d6 : ∀ x : Nat, x >>> 6 = x / 64 := fun x => Nat.shiftRight_eq_div_pow x 6
  have d11 : ∀ x : Nat, x >>> 11 = x / 2048 := fun x => Nat.shiftRight_eq_div_pow x 11
  have d16 : ∀ x : Nat, x >>> 16 = x / 65536 := fun x => Nat.shiftRight_eq_div_pow x 16
  have d21 : ∀ x : Nat, x >>> 21 = x / 2097152 := fun x => Nat.shiftRight_eq_div_pow x 21
  rw [hand63, d6, d11, d16, d21, hand31, hand31, hand31, hand31]
  refine ⟨?_, ?_, ?_, ?_, ?_⟩ <;> omega

/-! ### Tokenizer lemmas (claim C6) -/

theorem stripComment_eq_takeWhile (s : List Char) :
    stripComment s = s.takeWhile (fun c => c != '#') := by
  induction s with
  | nil => rfl
  | cons c rest ih =>
    by_cases hc : c = '#'
    · subst hc
      have h1 : stripComment ('#' :: rest) = [] := by simp [stripComment, splitOnceHash]
      have h2 : List.takeWhile (fun c => c != '#') ('#' :: rest) = [] := by
        simp [List.takeWhile_cons]
      rw [h1, h2]
    · have h2 : List.takeWhile (fun x => x != '#') (c :: rest) =
          c :: List.takeWhile (fun x => x != '#') rest := by
        simp [List.takeWhile_cons, hc]
      rw [h2]
      cases h : splitOnceHash rest with
      | none =>
        have h1 : stripComment (c :: rest) = c :: rest := by
          simp [stripComment, splitOnceHash, if_neg hc, h]
        have h3 : stripComment rest = rest := by simp [stripComment, h]
        rw [h1, ← ih, h3]
      | some pr =>
        have h1 : stripComment (c :: rest) = c :: pr.1 := by
          simp [stripComment, splitOnceHash, if_neg hc, h]
        have h3 : stripComment rest = pr.1 := by simp [stripComment, h]
        rw [h1, ← ih, h3]

theorem splitChAux_filter (p : Char → Bool) :
    ∀ (s acc : List Char), acc ≠ [] →
      (splitChAux p s acc).filter (fun t => !t.isEmpty) =
        (acc.reverse ++ s.takeWhile (fun x => !p x)) ::
          (splitCh p (s.dropWhile (fun x => !p x))).filter (fun t => !t.isEmpty) := by
  intro s
  induction s with
  | nil =>
    intro acc hacc
    have hrev : acc.reverse ≠ [] := by simpa using hacc
    have h4 : acc.reverse.isEmpty = false := List.isEmpty_eq_false.mpr hrev
    simp [splitChAux, splitCh, List.filter, h4]
  | cons c r ihr =>
    intro acc hacc
    by_cases hpc : p c = true
    · have hrev : acc.reverse ≠ [] := by simpa using hacc
      have h1 : (splitCh p (c :: r)).filter (fun t => !t.isEmpty) =
          (splitCh p r).filter (fun t => !t.isEmpty) := by
        simp [splitCh, splitChAux, hpc, List.filter]
      simp [splitChAux, hpc, List.filter, List.isEmpty_iff, hrev, h1, List.takeWhile_cons,
        List.dropWhile_cons, splitCh]
    · have hrec := ihr (c :: acc) (by simp)
      simp only [splitChAux, if_neg hpc]
      rw [hrec]
      simp [List.takeWhile_cons, List.dropWhile_cons, hpc]

theorem filter_splitCh_aux (p : Char → Bool) :
    ∀ (n : Nat) (s : List Char), s.length ≤ n →
      (splitCh p s).filter (fun t => !t.isEmpty) = splitRuns p s := by
  intro n
  induction n with
  | zero =>
    intro s hs
    have hnil : s = [] := List.eq_nil_of_length_eq_zero (Nat.le_zero.mp hs)
    subst hnil
    simp [splitCh, splitChAux, splitRuns, List.filter]
  | succ n ih =>
    intro s hs
    match s with
    | [] => simp [splitCh, splitChAux, splitRuns, List.filter]
    | c :: r =>
      have hr : r.length ≤ n := by simpa using hs
      by_cases hpc : p c = true
      · have h1 : (splitCh p (c :: r)).filter (fun t => !t.isEmpty) =
            (splitCh p r).filter (fun t => !t.isEmpty) := by
          simp [splitCh, splitChAux, hpc, List.filter]
        rw [h1, ih r hr]
        simp [splitRuns, hpc]
      · have h1 : (splitCh p (c :: r)).filter (fun t => !t.isEmpty) =
            (splitChAux p r [c]).filter (fun t => !t.isEmpty) := by
          simp [splitCh, splitChAux, hpc]
        rw [h1, splitChAux_filter p r [c] (by simp)]
        have hd : (r.dropWhile (fun x => !p x)).length ≤ n :=
          Nat.le_trans (List.dropWhile_sublist _).length_le hr
        rw [ih _ hd]
        simp [splitRuns, hpc]

theorem filter_splitCh (p : Char → Bool) (s : List Char) :
    (splitCh p s).filter (fun t => !t.isEmpty) = splitRuns p s :=
  filter_splitCh_aux p s.length s (Nat.le_refl _)

/-! ### Claim theorems -/

/-- C1: what the code actually does on the claim's example `"lw $t0, 4($sp)"`.
The produced word is `0b100011_01000_11101_0000000000000100`: the t register
(`$t0`, code 8) sits in bits 25:21 and the s register (`$sp`, code 29) sits in
bits 20:16 — the transpose of the claimed layout, which puts `$sp` (11101) in
bits 25:21. -/
theorem c1_lw_field_placement :
    assemble_line "lw $t0, 4($sp)" = .ok 2367488004 ∧
    2367488004 >>> 26 = 35 ∧
    (2367488004 >>> 21) &&& 31 = 8 ∧
    (2367488004 >>> 16) &&& 31 = 29 ∧
    2367488004 &&& 65535 = 4 ∧
    ¬((2367488004 >>> 21) &&& 31 = 29) := by
  decide

/-- C2 counterexample: `"or $k0, $k0, $k0"` encodes to a word, but replacing
`$k0` with `$26` does not produce an identical bit pattern — the lookup of
`$26` misses the table and the `unwrap` crashes, so no word at all is
produced. -/
theorem c2_numeric_alias_counterexample :
    assemble_line "or $k0, $k0, $k0" = .ok 56283173 ∧
    assemble_line "or $26, $26, $26" = .crash ∧
    emittedWord (assemble_line "or $26, $26, $26") ≠
      emittedWord (assemble_line "or $k0, $k0, $k0") := by
  decide

/-- C2 amended: the register table carries only the symbolic spellings.  All
numeric spellings `$0`..`$31` miss the table, while `$k0` resolves to code 26
and encodes normally; the same line with `$26` crashes instead. -/
theorem c2_symbolic_only :
    ((List.range 32).all fun n => (getByLeft register_codes ("$" ++ toString n)).isNone) = true ∧
    getByLeft register_codes "$k0" = some 26 ∧
    assemble_line "add $k0, $k0, $k0" = .ok 56283168 ∧
    assemble_line "add $26, $26, $26" = .crash := by
  decide

/-- C3 counterexample: for the R-type tokens `"add $t0, $t1, $t2"` the decoder
renders the last two operands swapped (it prints rd, rs, rt while the encoder
reads rd, rt, rs), so decode∘encode is not the rendering with operands in
source order. -/
theorem c3_rtype_roundtrip_counterexample :
    encodeThenDecode ["add", "$t0", "$t1", "$t2"] = some "add $t0, $t2, $t1" ∧
    some "add $t0, $t2, $t1" ≠ some "add $t0, $t1, $t2" := by
  decide

/-- C3 amended: the round trip does hold for the I-type formats.  For the
arithmetic/branch form and for the memory form, decoding the encoded word
reproduces the mnemonic and the operands in source order (the immediate in
canonical decimal). -/
theorem c3_itype_roundtrip :
    (∀ (op ct cs v : Nat) (m rt rs it : String),
      getByLeft i_codes m = some op → op ≠ LW_OPCODE → op ≠ SW_OPCODE →
      getByLeft register_codes rt = some ct →
      getByLeft register_codes rs = some cs →
      parseU32 it = some v → v < 65536 →
      encodeThenDecode [m, rt, rs, it] =
        some (m ++ " " ++ rt ++ ", " ++ rs ++ ", " ++ toString v ++ "\n")) ∧
    (∀ (op ct cs v : Nat) (m rt pOff off base : String),
      getByLeft i_codes m = some op → (op = LW_OPCODE ∨ op = SW_OPCODE) →
      getByLeft register_codes rt = some ct →
      parenFields pOff = [off, base] →
      parseU32 off = some v → v < 65536 →
      getByLeft register_codes base = some cs →
      encodeThenDecode [m, rt, pOff] =
        some (m ++ " " ++ rt ++ ", " ++ toString v ++ "(" ++ base ++ ")" ++ "\n")) := by
  have hmask : ∀ x : Nat, x &&& 65535 = x % 65536 :=
    fun x => Nat.and_pow_two_sub_one_eq_mod x 16
  constructor
  · intro op ct cs v m rt rs it hi h35 h43 hrt hrs hv hv16
    obtain ⟨hop64, hop0, hIR, hJN, hlow⟩ := i_lookup_facts hi
    obtain ⟨hct32, hctR⟩ := register_lookup_facts hrt
    obtain ⟨hcs32, hcsR⟩ := register_lookup_facts hrs
    have hcond : ¬(op = LW_OPCODE ∨ op = SW_OPCODE) := by
      rintro (h | h)
      · exact h35 h
      · exact h43 h
    have hmlw : m ≠ "lw" := by
      intro h; subst h
      have h1 : some (35 : Nat) = some op := by rw [← hi]; rfl
      exact h35 (Option.some.inj h1).symm
    have hmsw : m ≠ "sw" := by
      intro h; subst h
      have h1 : some (43 : Nat) = some op := by rw [← hi]; rfl
      exact h43 (Option.some.inj h1).symm
    have hname : ¬(m = "lw" ∨ m = "sw") := by
      rintro (h | h)
      · exact hmlw h
      · exact hmsw h
    have hveq : v &&& 65535 = v := by rw [hmask]; exact Nat.mod_eq_of_lt hv16
    obtain ⟨u26, u21, u16, u0⟩ := unpack_i v cs ct op hv16 hcs32 hct32
    have g1 : ([m, rt, rs, it] : List String).get? 1 = some rt := rfl
    have g2 : ([m, rt, rs, it] : List String).get? 2 = some rs := rfl
    have g3 : ([m, rt, rs, it] : List String).get? 3 = some it := rfl
    have hw : assembleParts [m, rt, rs, it] =
        .ok (67108864 * op + 2097152 * ct + 65536 * cs + v) := by
      simp only [assembleParts, hlow, hi, assemble_i, if_neg hcond, g1, g2, g3, hv, hrt,
        hrs, Option.bind_eq_bind, Option.pure_def, Option.bind, Option.some_bind, hveq]
      rw [pack_i v cs ct op hv16 hcs32 hct32]
    have hdec : disassemble_word (67108864 * op + 2097152 * ct + 65536 * cs + v) =
        some (m ++ " " ++ rt ++ ", " ++ rs ++ ", " ++ toString v ++ "\n") := by
      simp only [disassemble_word, u26, if_neg hop0, hJN, hIR, disassemble_i, u21, u16, u0,
        hctR, hcsR, if_neg hname, Option.bind_eq_bind, Option.pure_def, Option.bind,
        Option.some_bind]
    simp only [encodeThenDecode, hw]
    exact hdec
  · intro op ct cs v m rt pOff off base hi hor hrt hpp hv hv16 hbase
    obtain ⟨hop64, hop0, hIR, hJN, hlow⟩ := i_lookup_facts hi
    obtain ⟨hct32, hctR⟩ := register_lookup_facts hrt
    obtain ⟨hcs32, hcsR⟩ := register_lookup_facts hbase
    have hname : m = "lw" ∨ m = "sw" := by
      rcases hor with h | h
      · subst h
        have h1 : some "lw" = some m := by rw [← hIR]; rfl
        exact Or.inl (Option.some.inj h1).symm
      · subst h
        have h1 : some "sw" = some m := by rw [← hIR]; rfl
        exact Or.inr (Option.some.inj h1).symm
    have hveq : v &&& 65535 = v := by rw [hmask]; exact Nat.mod_eq_of_lt hv16
    obtain ⟨u26, u21, u16, u0⟩ := unpack_i v cs ct op hv16 hcs32 hct32
    have g1 : ([m, rt, pOff] : List String).get? 1 = some rt := rfl
    have g2 : ([m, rt, pOff] : List String).get? 2 = some pOff := rfl
    have l0 : ([off, base] : List String).get? 0 = some off := rfl
    have l1 : ([off, base] : List String).get? 1 = some base := rfl
    have hw : assembleParts [m, rt, pOff] =
        .ok (67108864 * op + 2097152 * ct + 65536 * cs + v) := by
      simp only [assembleParts, hlow, hi, assemble_i, if_pos hor, g1, g2, hpp, l0, l1, hv,
        hrt, hbase, Option.bind_eq_bind, Option.pure_def, Option.bind, Option.some_bind,
        hveq]
      rw [pack_i v cs ct op hv16 hcs32 hct32]
    have hdec : disassemble_word (67108864 * op + 2097152 * ct + 65536 * cs + v) =
        some (m ++ " " ++ rt ++ ", " ++ toString v ++ "(" ++ base ++ ")" ++ "\n") := by
      simp only [disassemble_word, u26, if_neg hop0, hJN, hIR, disassemble_i, u21, u16, u0,
        hctR, hcsR, if_pos hname, Option.bind_eq_bind, Option.pure_def, Option.bind,
        Option.some_bind]
    simp only [encodeThenDecode, hw]
    exact hdec

theorem c3_itype_roundtrip_witness :
    encodeThenDecode ["addi", "$t0", "$t1", "5"] = some "addi $t0, $t1, 5\n" ∧
    encodeThenDecode ["lw", "$t0", "4($sp)"] = some "lw $t0, 4($sp)\n" := by
  constructor
  · have h := c3_itype_roundtrip.1 8 8 9 5 "addi" "$t0" "$t1" "5" (by decide) (by decide)
      (by decide) (by decide) (by decide) (by decide) (by decide)
    rw [h]; rfl
  · have h := c3_itype_roundtrip.2 35 8 29 4 "lw" "$t0" "4($sp)" "4" "$sp" (by decide)
      (by decide) (by decide) (by decide) (by decide) (by decide) (by decide)
    rw [h]; rfl

/-- C4 counterexample: on the claim's own example the assembler does produce
an instruction word — the fallback branch returns 0 and `assemble_file`
writes that 0 to both output files. -/
theorem c4_unknown_mnemonic_counterexample :
    assemble_line "foo $t0, $t1, $t2" = .failedParse 0 ∧
    emittedWord (assemble_line "foo $t0, $t1, $t2") = some 0 := by
  decide

/-- C4 amended: for every token list whose mnemonic is in none of the three
tables, the line prints the `"Failed to parse line"` diagnostic (with the
token list) and returns the word 0, which is emitted. -/
theorem c4_unknown_mnemonic_yields_zero (m : String) (rest : List String)
    (hi : getByLeft i_codes (toLowerStr m) = none)
    (hr : getByLeft r_codes (toLowerStr m) = none)
    (hj : getByLeft j_codes (toLowerStr m) = none) :
    assembleParts (m :: rest) = .failedParse 0 ∧
    emittedWord (assembleParts (m :: rest)) = some 0 := by
  simp [assembleParts, hi, hr, hj, emittedWord]

theorem c4_unknown_mnemonic_yields_zero_witness :
    assembleParts ("foo" :: ["$t0", "$t1", "$t2"]) = .failedParse 0 ∧
    emittedWord (assembleParts ("foo" :: ["$t0", "$t1", "$t2"])) = some 0 :=
  c4_unknown_mnemonic_yields_zero "foo" ["$t0", "$t1", "$t2"] (by decide) (by decide) (by decide)

/-- C5: in `assemble_r`, the fixed-shift family {SLL=0, SRL=2, SRA=3} parses
token 3 as the literal shift amount (bits 10:6) and forces the s field
(bits 25:21) to 0; every other R-type function code (so also sllv, srlv,
srav) looks token 3 up as a register for the s field and forces the shift
amount to 0.  Concretely `"sll $t0, $t1, 2"` gives function code 0, rd=8,
rt=9, shamt=2, s=0. -/
theorem c5_rtype_shift_vs_register :
    (assembleParts ["sll", "$t0", "$t1", "2"] = .ok 606336 ∧
      606336 &&& 63 = 0 ∧ (606336 >>> 6) &&& 31 = 2 ∧ (606336 >>> 11) &&& 31 = 8 ∧
      (606336 >>> 16) &&& 31 = 9 ∧ (606336 >>> 21) &&& 31 = 0) ∧
    (∀ (func n cd ct : Nat) (m rd rt sh : String),
      (func = SLL_OPCODE ∨ func = SRL_OPCODE ∨ func = SRA_OPCODE) →
      getByLeft register_codes rd = some cd →
      getByLeft register_codes rt = some ct →
      parseU32 sh = some n → n < 32 →
      ∃ w, assemble_r func [m, rd, rt, sh] = some w ∧
        w &&& 63 = func ∧ (w >>> 6) &&& 31 = n ∧ (w >>> 11) &&& 31 = cd ∧
        (w >>> 16) &&& 31 = ct ∧ (w >>> 21) &&& 31 = 0) ∧
    (∀ (func cd ct cs : Nat) (mn m rd rt rs : String),
      getByLeft r_codes mn = some func →
      ¬(func = SLL_OPCODE ∨ func = SRL_OPCODE ∨ func = SRA_OPCODE) →
      getByLeft register_codes rd = some cd →
      getByLeft register_codes rt = some ct →
      getByLeft register_codes rs = some cs →
      ∃ w, assemble_r func [m, rd, rt, rs] = some w ∧
        w &&& 63 = func ∧ (w >>> 6) &&& 31 = 0 ∧ (w >>> 11) &&& 31 = cd ∧
        (w >>> 16) &&& 31 = ct ∧ (w >>> 21) &&& 31 = cs) := by
  refine ⟨by decide, ?_, ?_⟩
  · intro func n cd ct m rd rt sh hsh hrd hrt hn hn32
    obtain ⟨hcd, -⟩ := register_lookup_facts hrd
    obtain ⟨hct, -⟩ := register_lookup_facts hrt
    have hf : func < 64 := by rcases hsh with h | h | h <;> subst h <;> decide
    have g1 : ([m, rd, rt, sh] : List String).get? 1 = some rd := rfl
    have g2 : ([m, rd, rt, sh] : List String).get? 2 = some rt := rfl
    have g3 : ([m, rd, rt, sh] : List String).get? 3 = some sh := rfl
    have hw : assemble_r func [m, rd, rt, sh] =
        some (2097152 * 0 + 65536 * ct + 2048 * cd + 64 * n + func) := by
      simp only [assemble_r, if_pos hsh, g1, g2, g3, hrd, hrt, hn, Option.bind_eq_bind,
        Option.pure_def, Option.bind, Option.some_bind]
      rw [pack_r func n cd ct 0 hf hn32 hcd hct]
    exact ⟨_, hw, unpack_r func n cd ct 0 hf hn32 hcd hct (by omega)⟩
  · intro func cd ct cs mn m rd rt rs hmn hnsh hrd hrt hrs
    obtain ⟨hcd, -⟩ := register_lookup_facts hrd
    obtain ⟨hct, -⟩ := register_lookup_facts hrt
    obtain ⟨hcs, -⟩ := register_lookup_facts hrs
    have hf : func < 64 := r_lookup_facts hmn
    have g1 : ([m, rd, rt, rs] : List String).get? 1 = some rd := rfl
    have g2 : ([m, rd, rt, rs] : List String).get? 2 = some rt := rfl
    have g3 : ([m, rd, rt, rs] : List String).get? 3 = some rs := rfl
    have hw : assemble_r func [m, rd, rt, rs] =
        some (2097152 * cs + 65536 * ct + 2048 * cd + 64 * 0 + func) := by
      simp only [assemble_r, if_neg hnsh, g1, g2, g3, hrd, hrt, hrs, Option.bind_eq_bind,
        Option.pure_def, Option.bind, Option.some_bind]
      rw [pack_r func 0 cd ct cs hf (by omega) hcd hct]
    exact ⟨_, hw, unpack_r func 0 cd ct cs hf (by omega) hcd hct hcs⟩

theorem c5_rtype_shift_vs_register_witness :
    (∃ w, assemble_r 0 ["sll", "$t0", "$t1", "2"] = some w ∧
      w &&& 63 = 0 ∧ (w >>> 6) &&& 31 = 2 ∧ (w >>> 11) &&& 31 = 8 ∧
      (w >>> 16) &&& 31 = 9 ∧ (w >>> 21) &&& 31 = 0) ∧
    (∃ w, assemble_r 4 ["sllv", "$t0", "$t1", "$t2"] = some w ∧
      w &&& 63 = 4 ∧ (w >>> 6) &&& 31 = 0 ∧ (w >>> 11) &&& 31 = 8 ∧
      (w >>> 16) &&& 31 = 9 ∧ (w >>> 21) &&& 31 = 10) :=
  ⟨c5_rtype_shift_vs_register.2.1 0 2 8 9 "sll" "$t0" "$t1" "2" (by decide) (by decide)
      (by decide) (by decide) (by decide),
   c5_rtype_shift_vs_register.2.2 4 8 9 10 "sllv" "sllv" "$t0" "$t1" "$t2" (by decide)
      (by decide) (by decide) (by decide) (by decide)⟩

/-- C7: the I-type immediate is masked to its low 16 bits before packing, in
both the arithmetic/branch form and the memory (`lw`/`sw`) form: two
immediate tokens that agree modulo 2^16 encode to the same word. -/
theorem c7_immediate_masked :
    (∀ (op v1 v2 : Nat) (m t s it1 it2 : String),
      getByLeft i_codes m = some op → op ≠ LW_OPCODE → op ≠ SW_OPCODE →
      parseU32 it1 = some v1 → parseU32 it2 = some v2 → v1 % 65536 = v2 % 65536 →
      assemble_i op [m, t, s, it1] = assemble_i op [m, t, s, it2]) ∧
    (∀ (op v1 v2 : Nat) (m t p1 p2 o1 o2 r : String),
      getByLeft i_codes m = some op → (op = LW_OPCODE ∨ op = SW_OPCODE) →
      parenFields p1 = [o1, r] → parenFields p2 = [o2, r] →
      parseU32 o1 = some v1 → parseU32 o2 = some v2 → v1 % 65536 = v2 % 65536 →
      assemble_i op [m, t, p1] = assemble_i op [m, t, p2]) := by
  have hmask : ∀ x : Nat, x &&& 65535 = x % 65536 :=
    fun x => Nat.and_pow_two_sub_one_eq_mod x 16
  constructor
  · intro op v1 v2 m t s it1 it2 _hi h35 h43 hv1 hv2 hmod
    have hcond : ¬(op = LW_OPCODE ∨ op = SW_OPCODE) := by
      rintro (h | h)
      · exact h35 h
      · exact h43 h
    have he : v1 &&& 65535 = v2 &&& 65535 := by rw [hmask, hmask]; exact hmod
    have g3 : ([m, t, s, it1] : List String).get? 3 = some it1 := rfl
    have g3' : ([m, t, s, it2] : List String).get? 3 = some it2 := rfl
    have g1 : ([m, t, s, it1] : List String).get? 1 = some t := rfl
    have g1' : ([m, t, s, it2] : List String).get? 1 = some t := rfl
    have g2 : ([m, t, s, it1] : List String).get? 2 = some s := rfl
    have g2' : ([m, t, s, it2] : List String).get? 2 = some s := rfl
    simp only [assemble_i, if_neg hcond, g1, g1', g2, g2', g3, g3', hv1, hv2,
      Option.bind_eq_bind, Option.pure_def, Option.bind, Option.some_bind, he]
  · intro op v1 v2 m t p1 p2 o1 o2 r _hi hor hp1 hp2 hv1 hv2 hmod
    have he : v1 &&& 65535 = v2 &&& 65535 := by rw [hmask, hmask]; exact hmod
    have g2 : ([m, t, p1] : List String).get? 2 = some p1 := rfl
    have g2' : ([m, t, p2] : List String).get? 2 = some p2 := rfl
    have g1 : ([m, t, p1] : List String).get? 1 = some t := rfl
    have g1' : ([m, t, p2] : List String).get? 1 = some t := rfl
    have l0 : ([o1, r] : List String).get? 0 = some o1 := rfl
    have l0' : ([o2, r] : List String).get? 0 = some o2 := rfl
    have l1 : ([o1, r] : List String).get? 1 = some r := rfl
    have l1' : ([o2, r] : List String).get? 1 = some r := rfl
    simp only [assemble_i, if_pos hor, g1, g1', g2, g2', hp1, hp2, l0, l0', l1, l1',
      hv1, hv2, Option.bind_eq_bind, Option.pure_def, Option.bind, Option.some_bind, he]

theorem c7_immediate_masked_witness :
    assemble_i 8 ["addi", "$t0", "$t1", "131071"] =
      assemble_i 8 ["addi", "$t0", "$t1", "65535"] ∧
    assemble_i 35 ["lw", "$t0", "131071($sp)"] = assemble_i 35 ["lw", "$t0", "65535($sp)"] :=
  ⟨c7_immediate_masked.1 8 131071 65535 "addi" "$t0" "$t1" "131071" "65535" (by decide)
      (by decide) (by decide) (by decide) (by decide) (by decide),
   c7_immediate_masked.2 35 131071 65535 "lw" "$t0" "131071($sp)" "65535($sp)" "131071"
      "65535" "$sp" (by decide) (by decide) (by decide) (by decide) (by decide) (by decide)
      (by decide)⟩

/-- C6: the tokenizer of `assemble_line` implements exactly the spec's
four-step contract: truncate at the first `'#'`, trim surrounding whitespace,
split on every run of spaces or commas discarding empty fields, and
lower-case only the mnemonic token. -/
theorem c6_tokenizer_matches_spec (line : String) : tokenize line = tokenizeSpec line := by
  simp only [tokenize, tokenizeSpec, rawParts, stripComment_eq_takeWhile, filter_splitCh]

/-- C8: every token list headed by a jump mnemonic encodes to a word whose
only nonzero field is the opcode in bits 31:26, whatever the operand tokens
are; concretely `"j 0x400000"` yields opcode `0b000010` with a zero 26-bit
address field. -/
theorem c8_jtype_opcode_only :
    (∀ rest : List String,
      assembleParts ("j" :: rest) = .ok (0b000010 <<< 26) ∧
      assembleParts ("jal" :: rest) = .ok (0b000011 <<< 26)) ∧
    (0b000010 <<< 26 : Nat) >>> 26 = 0b000010 ∧ (0b000010 <<< 26 : Nat) % 67108864 = 0 ∧
    (0b000011 <<< 26 : Nat) >>> 26 = 0b000011 ∧ (0b000011 <<< 26 : Nat) % 67108864 = 0 ∧
    assemble_line "j 0x400000" = .ok (0b000010 <<< 26) := by
  refine ⟨fun rest => ⟨rfl, rfl⟩, by decide, by decide, by decide, by decide, by decide⟩

/-- C9: a line that is blank after comment stripping and trimming tokenizes
to the empty token list, and assembling it crashes on the `parts[0]` indexing
rather than returning any word. -/
theorem c9_blank_line (line : String) (h : trimWs (stripComment line.data) = []) :
    tokenize line = [] ∧ assemble_line line = .crash := by
  have hraw : rawParts line.data = [] := by
    simp [rawParts, h, splitCh, splitChAux]
  exact ⟨by simp [tokenize, hraw], by simp [assemble_line, hraw, assembleParts]⟩

theorem c9_blank_line_witness :
    trimWs (stripComment ("   # hi" : String).data) = [] ∧
    tokenize "   # hi" = [] ∧ assemble_line "   # hi" = .crash :=
  ⟨by decide, c9_blank_line "   # hi" (by decide)⟩

/-- C10: during disassembly a nonzero opcode found in neither the jump table
nor the immediate table crashes the process, as does a zero opcode whose
function code misses the R table; a nonzero opcode is looked up in the jump
table first, whatever the immediate table holds. -/
theorem c10_disassemble_dispatch :
    (∀ w : Nat, w >>> 26 ≠ 0 → getByRight j_codes (w >>> 26) = none →
      getByRight i_codes (w >>> 26) = none → disassemble_word w = none) ∧
    (∀ w : Nat, w >>> 26 = 0 → getByRight r_codes (w &&& 63) = none →
      disassemble_word w = none) ∧
    (∀ (w : Nat) (name : String), w >>> 26 ≠ 0 → getByRight j_codes (w >>> 26) = some name →
      disassemble_word w = some (disassemble_j name)) := by
  refine ⟨fun w h0 hj hi => ?_, fun w h0 hr => ?_, fun w name h0 hj => ?_⟩
  · simp [disassemble_word, h0, hj, hi]
  · simp [disassemble_word, h0, hr]
  · simp [disassemble_word, h0, hj]

theorem c10_disassemble_dispatch_witness :
    disassemble_word 4227858432 = none ∧ disassemble_word 63 = none ∧
    disassemble_word 134217733 = some (disassemble_j "j") :=
  ⟨c10_disassemble_dispatch.1 4227858432 (by decide) (by decide) (by decide),
   c10_disassemble_dispatch.2.1 63 (by decide) (by decide),
   c10_disassemble_dispatch.2.2 134217733 "j" (by decide) (by decide)⟩

end Mips
